import Mathlib

/-!
Verification development for the narrartive-backend order-fulfillment
pipeline.  The JavaScript sources are shallowly embedded: JS strings become
`String`, JS objects used as string-keyed maps become functions
`String → Option _`, CSV rows become a structure of optional fields
(a missing column is `none`), and code that can throw is embedded into
`Except String`.  Remote I/O (Google Drive, Brevo/SMTP) is abstracted into
explicit environment records whose fields state which remote calls succeed;
the control flow around those calls is translated statement by statement
from the sources.
-/

namespace NB

/-! ### Small string utilities (JS `trim`, `indexOf`, `slice`, `toLowerCase`) -/

/-- Whitespace recognised by `String.prototype.trim` (the ASCII cases that
can occur in the order exports). -/
def isWs (c : Char) : Bool := c == ' ' || c == '\t' || c == '\n' || c == '\r'

/-- `trim` on a character list. -/
def trimL (l : List Char) : List Char :=
  ((l.dropWhile isWs).reverse.dropWhile isWs).reverse

/-- JS `String.prototype.trim`. -/
def trimS (s : String) : String := ⟨trimL s.data⟩

/-- JS `String.prototype.toLowerCase` (ASCII). -/
def lowerS (s : String) : String := ⟨s.data.map Char.toLower⟩

/-- Does `p` start the list `l`? -/
def isPrefixL : List Char → List Char → Bool
  | [], _ => true
  | _ :: _, [] => false
  | a :: as, b :: bs => a == b && isPrefixL as bs

/-- Index of the first occurrence of the pattern `pat` in a list, as in JS
`String.prototype.indexOf` (`none` plays the role of `-1`). -/
def idxOfSub (pat : List Char) : List Char → Option Nat
  | [] => if pat.isEmpty then some 0 else none
  | c :: r => if isPrefixL pat (c :: r) then some 0 else (idxOfSub pat r).map (· + 1)

/-- JS `String.prototype.includes`. -/
def containsSub (s pat : String) : Bool := (idxOfSub pat.data s.data).isSome

/-- JS `s.slice(-4)`: the last four characters (the whole string when it is
shorter than four characters). -/
def sliceNeg4 (s : String) : String := ⟨s.data.drop (s.data.length - 4)⟩

/-- `needle` occurs contiguously inside `hay`. -/
def SubstrOf (needle hay : String) : Prop := ∃ a b, hay = a ++ needle ++ b

/-! ### Rows of the order export

One parsed CSV row.  A column that is absent from the export is `none`
(JS `undefined`); the embedded code handles `undefined` exactly where the
JS does. -/

structure Row where
  orderNumber : Option String  -- column `Order Number`
  orderId : Option String      -- column `Order ID` (used by one variant)
  productName : Option String  -- column `Product Name`
  buyerEmail : Option String   -- column `Buyer Email`
  buyerName : Option String    -- column `Buyer Name`
deriving DecidableEq

/-- JS template-literal / property-key coercion of a possibly-`undefined`
string value (`undefined` prints and keys as `"undefined"`). -/
def jsStringOf : Option String → String
  | some s => s
  | none => "undefined"

/-- JS `v || dflt` for a string field: `undefined` and the empty string are
falsy. -/
def jsOr (v : Option String) (dflt : String) : String :=
  match v with
  | none => dflt
  | some s => if s = "" then dflt else s

/-! ### utils.js -/

/-- utils.js `generatePassword` (lines 26–28):
`` `${order['Order Number']}${(order['Buyer Email'] || 'xxxx').slice(-4)}` ``. -/
def generatePassword (order : Row) : String :=
  jsStringOf order.orderNumber ++ sliceNeg4 (jsOr order.buyerEmail "xxxx")

/-! ### orders.js product-name normalization -/

/-- The `" - "` delimiter after which the export appends marketing text. -/
def delimChars : List Char := [' ', '-', ' ']

/-- orders.js `extractProductName` (lines 18–21) on a character list:
`indexOf(' - ')`, then `substring(0, dashIndex).trim()` when found, else
`trim()` of the whole name. -/
def extractProductNameL (l : List Char) : List Char :=
  match idxOfSub delimChars l with
  | some i => trimL (l.take i)
  | none => trimL l

/-- orders.js `extractProductName`. -/
def extractProductName (s : String) : String := ⟨extractProductNameL s.data⟩

/-- The prefix of a list strictly before the first occurrence of `pat`
(the whole list when `pat` does not occur).  This is the specification-side
reading of "truncate at the first occurrence of the delimiter"; it is
defined by direct recursion, independently of `idxOfSub`. -/
def beforeFirstL (pat : List Char) : List Char → List Char
  | [] => []
  | c :: r => if isPrefixL pat (c :: r) then [] else c :: beforeFirstL pat r

theorem idxOfSub_take_eq_beforeFirst (pat : List Char) :
    ∀ l : List Char,
      (match idxOfSub pat l with
       | some i => l.take i
       | none => l) = beforeFirstL pat l := by
  intro l
  induction l with
  | nil =>
    by_cases h : pat.isEmpty = true <;> simp [idxOfSub, beforeFirstL, h]
  | cons c r ih =>
    by_cases h : isPrefixL pat (c :: r) = true
    · simp only [idxOfSub, beforeFirstL, if_pos h]
      rfl
    · simp only [idxOfSub, beforeFirstL, if_neg h]
      cases hidx : idxOfSub pat r with
      | none =>
        simp only [hidx] at ih
        simp only [hidx, Option.map_none']
        exact congrArg (c :: ·) ih
      | some i =>
        simp only [hidx] at ih
        simp only [hidx, Option.map_some', List.take_succ_cons]
        exact congrArg (c :: ·) ih

/-- When the delimiter never occurs, the truncation point is the whole list. -/
theorem beforeFirst_of_no_occurrence (pat : List Char) (l : List Char)
    (h : idxOfSub pat l = none) : beforeFirstL pat l = l := by
  have := idxOfSub_take_eq_beforeFirst pat l
  simp [h] at this
  exact this.symm

/-! ### tracker.js -/

/-- The processed-orders tracker record: file name → list of order
identifiers already delivered from that file (the JSON shape
`[fileName]: [orderId, ...]`).  A JS object is embedded as a map to
`Option`: `none` is an absent key. -/
def Tracker : Type := String → Option (List String)

/-- `tracker[k]`, with the convention that reading through an entry the
code has just initialised with `??= []` yields `[]`. -/
def entryOf (t : Tracker) (k : String) : List String := (t k).getD []

/-- `tracker[k] = v`. -/
def setEntry (t : Tracker) (k : String) (v : List String) : Tracker :=
  fun k' => if k' = k then some v else t k'

/-- `tracker[k] ??= []`. -/
def ensureEntry (t : Tracker) (k : String) : Tracker :=
  if (t k).isSome then t else setEntry t k []

theorem entryOf_ensureEntry (t : Tracker) (k : String) :
    entryOf (ensureEntry t k) k = entryOf t k := by
  cases hk : t k with
  | none => simp [ensureEntry, entryOf, setEntry, hk]
  | some v => simp [ensureEntry, entryOf, hk]

theorem ensureEntry_isSome (t : Tracker) (k : String) :
    ((ensureEntry t k) k).isSome := by
  by_cases h : (t k).isSome = true <;> simp [ensureEntry, setEntry, h]

theorem ensureEntry_other (t : Tracker) (k k' : String) (h : k' ≠ k) :
    ensureEntry t k k' = t k' := by
  by_cases hs : (t k).isSome = true <;> simp [ensureEntry, setEntry, hs, h]

/-- What Google Drive hands back for the tracker file: the raw JSON string,
or an already-decoded object (`res.data` can be either in tracker.js). -/
inductive FetchedTracker where
  | asString (raw : String)
  | asObj (t : List (String × List String))

/-- Result of `loadTracker`: the in-memory record plus the observable
side effects (corruption log line, operator alert). -/
structure LoadResult where
  tracker : List (String × List String)
  loggedCorrupt : Bool
  alerted : Bool

/-- tracker.js `loadTracker` (lines 25–51).  `found` is the outcome of
`findTrackerFileId` + `files.get` (`none`: no tracker file exists);
`parseJson` is the external `JSON.parse`, returning `.error` when it would
throw.  Every branch returns a record — no error is propagated. -/
def loadTracker (found : Option FetchedTracker)
    (parseJson : String → Except String (List (String × List String))) : LoadResult :=
  match found with
  | none => { tracker := [], loggedCorrupt := false, alerted := false }
  | some (.asObj t) => { tracker := t, loggedCorrupt := false, alerted := false }
  | some (.asString raw) =>
    match parseJson raw with
    | .ok t => { tracker := t, loggedCorrupt := false, alerted := false }
    | .error _ => { tracker := [], loggedCorrupt := true, alerted := true }

/-! ### Drive folders and orders.js asset resolution -/

/-- One Drive folder as returned by `files.list` (`files(id, name)`). -/
structure Folder where
  name : String
  id : String
deriving DecidableEq

/-- orders.js `getSubfolderId` (second variant, lines 535–549): list the
subfolders, then take the first whose trimmed, lower-cased name matches the
target. -/
def getSubfolderId (subfolders : List Folder) (targetName : String) : Option String :=
  (subfolders.find? (fun f => lowerS (trimS f.name) == lowerS (trimS targetName))).map (·.id)

/-- orders.js `findFormatFolder` (lines 511–523): among the product
folder's subfolders, try `'A2'` first, then `'40x40'`; `none` when neither
name is present. -/
def findFormatFolder (subfolders : List Folder) : Option String :=
  let folderNames := subfolders.map (·.name)
  if folderNames.contains "A2" then getSubfolderId subfolders "A2"
  else if folderNames.contains "40x40" then getSubfolderId subfolders "40x40"
  else none

/-- The message of the error thrown by `processSingleOrder` (orders.js
lines 478–481) when no format folder is found. -/
def formatMissingMsg (productName : String) : String :=
  "Format folder missing: \"" ++ productName ++ "\" (A2 or 40x40 required)"

/-- The message of the error thrown by `processSingleOrder` (orders.js
lines 472–475) when the product folder is missing. -/
def productMissingMsg (productName : String) : String :=
  "Product folder missing: \"" ++ productName ++ "\""

/-! ### fileHandler.js sendEmail -/

/-- The three possible outcomes of the Brevo HTTP call inside
fileHandler.js `sendEmail` (lines 55–85). -/
inductive BrevoOutcome where
  | okResponse   -- `response.ok`: delivery accepted
  | errResponse  -- non-2xx response: `console.error`, no rethrow
  | fetchError   -- `fetch`/`json` threw: caught, `console.error`, no rethrow
deriving DecidableEq

/-- fileHandler.js `sendEmail` (lines 55–85) as seen by its caller: the
non-2xx branch only logs, and the `catch` block only logs, so the function
returns normally on every outcome — a send failure is never raised. -/
def sendEmailResult : BrevoOutcome → Except String Unit
  | .okResponse => .ok ()
  | .errResponse => .ok ()
  | .fetchError => .ok ()

/-- Whether the buyer actually received the notification. -/
def emailDelivered : BrevoOutcome → Bool
  | .okResponse => true
  | .errResponse => false
  | .fetchError => false

end NB

namespace NB

/-! ### Claim theorems for the leaf components -/

/-- Claim C8: `extractProductName` returns the trimmed prefix of the raw
name before the first `" - "` delimiter; a name with no delimiter is only
trimmed; `"Sunset - Premium"` normalizes to `"Sunset"` and
`"Moonrise - Deluxe"` to `"Moonrise"`. -/
theorem extractProductName_spec (s : String) :
    extractProductName s = String.mk (trimL (beforeFirstL delimChars s.data)) ∧
    (idxOfSub delimChars s.data = none → extractProductName s = trimS s) ∧
    extractProductName "Sunset - Premium" = "Sunset" ∧
    extractProductName "Moonrise - Deluxe" = "Moonrise" := by
  refine ⟨?_, ?_, by decide, by decide⟩
  · unfold extractProductName extractProductNameL
    cases hidx : idxOfSub delimChars s.data with
    | none =>
      have h := beforeFirst_of_no_occurrence delimChars s.data hidx
      rw [h]
    | some i =>
      have h := idxOfSub_take_eq_beforeFirst delimChars s.data
      rw [hidx] at h
      simp only at h
      show String.mk (trimL (List.take i s.data)) = String.mk (trimL (beforeFirstL delimChars s.data))
      rw [h]
  · intro h
    unfold extractProductName extractProductNameL
    rw [h]
    rfl

theorem extractProductName_spec_witness :
    idxOfSub delimChars "Sunset".data = none ∧ extractProductName "Sunset" = trimS "Sunset" :=
  ⟨by decide, (extractProductName_spec "Sunset").2.1 (by decide)⟩

/-- Claim C10: `generatePassword` is total on every row shape and never
raises: it concatenates the order-number field with `slice(-4)` of the
buyer email, substituting the literal `"xxxx"` whenever the `Buyer Email`
field is missing (`undefined`) or empty (falsy). -/
theorem generatePassword_spec (order : Row) :
    (order.buyerEmail = none ∨ order.buyerEmail = some "" →
      generatePassword order = jsStringOf order.orderNumber ++ "xxxx") ∧
    (∀ e, order.buyerEmail = some e → e ≠ "" →
      generatePassword order = jsStringOf order.orderNumber ++ sliceNeg4 e) := by
  constructor
  · rintro (h | h) <;>
      simp [generatePassword, jsOr, h] <;> rfl
  · intro e he hne
    simp [generatePassword, jsOr, he, hne]

theorem generatePassword_spec_witness :
    ({ orderNumber := some "1001", orderId := none, productName := none,
       buyerEmail := none, buyerName := none } : Row).buyerEmail = none ∧
    generatePassword
      { orderNumber := some "1001", orderId := none, productName := none,
        buyerEmail := none, buyerName := none } = "1001" ++ "xxxx" :=
  ⟨rfl,
   (generatePassword_spec
      { orderNumber := some "1001", orderId := none, productName := none,
        buyerEmail := none, buyerName := none }).1 (Or.inl rfl)⟩

/-- Claim C5: `loadTracker` never propagates a parse error: with no
tracker file it returns the empty record without error, and with content
that `JSON.parse` rejects it logs, sends the operator alert, and returns
the empty record. -/
theorem loadTracker_safe
    (parseJson : String → Except String (List (String × List String))) :
    loadTracker none parseJson = { tracker := [], loggedCorrupt := false, alerted := false } ∧
    (∀ raw e, parseJson raw = .error e →
      loadTracker (some (.asString raw)) parseJson =
        { tracker := [], loggedCorrupt := true, alerted := true }) := by
  refine ⟨rfl, fun raw e h => ?_⟩
  simp [loadTracker, h]

theorem loadTracker_safe_witness :
    (fun _ : String => (Except.error "Unexpected token" :
        Except String (List (String × List String)))) "not json" = .error "Unexpected token" ∧
    loadTracker (some (.asString "not json"))
        (fun _ => .error "Unexpected token") =
      { tracker := [], loggedCorrupt := true, alerted := true } :=
  ⟨rfl,
   (loadTracker_safe (fun _ => .error "Unexpected token")).2 "not json"
     "Unexpected token" rfl⟩

end NB

namespace NB

/-! ### orders.js processSingleOrder (second variant, lines 459–509)

The Drive and mail world is an explicit environment.  `productFolders` is
the result of `listSubfolders(NARRARTIVE_FOLDER_ID)`; `subfoldersOf` gives
`listSubfolders` of a product folder; the `Bool` fields say whether the
corresponding remote step completes without throwing. -/

structure OrderEnv where
  productFolders : List Folder
  subfoldersOf : String → List Folder
  downloadsOk : Bool   -- the per-item `downloadAllFilesInFolder` streams succeed
  thankYouOk : Bool    -- thank-you folder lookup + download succeed
  zipOk : Bool         -- `createZip` (external `zip` process) succeeds
  uploadOk : Bool      -- `uploadFile` returns an id
  brevo : BrevoOutcome -- outcome of the Brevo call inside `sendEmail`

/-- Is an `Except` a success? -/
def exceptOk {ε α : Type} : Except ε α → Bool
  | .ok _ => true
  | .error _ => false

/-- One iteration of the `for (const order of orderItems)` loop in
`processSingleOrder` (orders.js lines 467–484): trim and normalize the
product name, find the product folder by exact name among the
narrARTive subfolders, find the format folder, download its files.
A thrown error is an `Except.error` with the thrown message. -/
def resolveItem (env : OrderEnv) (order : Row) : Except String Unit :=
  match order.productName with
  | none => .error "TypeError: Cannot read properties of undefined (reading trim)"
  | some raw =>
    let productName := extractProductName (trimS raw)
    match env.productFolders.find? (fun p => p.name == productName) with
    | none => .error (productMissingMsg productName)
    | some pf =>
      match findFormatFolder (env.subfoldersOf pf.id) with
      | none => .error (formatMissingMsg productName)
      | some _ => if env.downloadsOk then .ok () else .error "download failed"

/-- The item loop of `processSingleOrder`; a throw aborts the loop. -/
def resolveItems (env : OrderEnv) : List Row → Except String Unit
  | [] => .ok ()
  | o :: rest =>
    match resolveItem env o with
    | .error e => .error e
    | .ok () => resolveItems env rest

/-- Does the control flow of `processSingleOrder` reach the `sendEmail`
call (orders.js line 497)? -/
def reachesEmail (env : OrderEnv) (orderItems : List Row) : Bool :=
  exceptOk (resolveItems env orderItems) && env.thankYouOk && env.zipOk && env.uploadOk

/-- orders.js `processSingleOrder` (lines 459–509).  The first component is
the call's outcome (a raised error or normal completion); the second
records whether the scratch directory `./temp_<orderId>` still exists when
the call exits.  The function creates the directory up front (lines
462–464) and removes it only in the final cleanup statements (line 506),
which run only after every earlier step succeeded — there is no
`try/finally`. -/
def processSingleOrder (env : OrderEnv) (orderItems : List Row) :
    Except String Unit × Bool :=
  match resolveItems env orderItems with
  | .error e => (.error e, true)
  | .ok () =>
    if env.thankYouOk = false then (.error "thank-you download failed", true)
    else if env.zipOk = false then (.error "zip failed", true)
    else if env.uploadOk = false then (.error "upload failed", true)
    else
      match sendEmailResult env.brevo with
      | .error e => (.error e, true)
      | .ok () => (.ok (), false)  -- deleteLocalFiles + fs.rmSync(tempFolder)

/-- `processSingleOrder` completes normally exactly when control reached
the `sendEmail` call: `sendEmailResult` never raises and nothing after it
can fail. -/
theorem processSingleOrder_ok_iff_reaches (env : OrderEnv) (orderItems : List Row) :
    exceptOk (processSingleOrder env orderItems).1 = reachesEmail env orderItems := by
  unfold processSingleOrder reachesEmail
  cases hres : resolveItems env orderItems with
  | error e => simp [exceptOk, hres]
  | ok u =>
    cases u
    cases hty : env.thankYouOk <;> cases hz : env.zipOk <;> cases hu : env.uploadOk <;>
      cases hb : env.brevo <;>
        simp [exceptOk, sendEmailResult, hres, hty, hz, hu, hb]

/-- Claim C7: format-folder resolution tries `'A2'` then `'40x40'` in that
fixed order and returns the first that exists: when `'A2'` is absent and
`'40x40'` present it returns the `'40x40'` folder reference rather than
nothing, and when neither exists it yields `none`, upon which
`processSingleOrder` raises an error message naming the product searched. -/
theorem findFormatFolder_first_match (subs : List Folder) :
    ((subs.map fun f => f.name).contains "A2" = false →
      (subs.map fun f => f.name).contains "40x40" = true →
        findFormatFolder subs = getSubfolderId subs "40x40" ∧
        (findFormatFolder subs).isSome = true) ∧
    ((subs.map fun f => f.name).contains "A2" = false →
      (subs.map fun f => f.name).contains "40x40" = false →
        findFormatFolder subs = none) ∧
    ((subs.map fun f => f.name).contains "A2" = true →
        findFormatFolder subs = getSubfolderId subs "A2") ∧
    (∀ productName, SubstrOf productName (formatMissingMsg productName)) ∧
    (∀ (env : OrderEnv) (row : Row) (raw : String) (pf : Folder),
      row.productName = some raw →
      env.productFolders.find? (fun p => p.name == extractProductName (trimS raw)) = some pf →
      findFormatFolder (env.subfoldersOf pf.id) = none →
      resolveItem env row = .error (formatMissingMsg (extractProductName (trimS raw)))) := by
  have hval : ∀ hA2 : (subs.map fun f => f.name).contains "A2" = false,
      ∀ h40 : (subs.map fun f => f.name).contains "40x40" = true,
      findFormatFolder subs = getSubfolderId subs "40x40" := by
    intro hA2 h40
    unfold findFormatFolder
    dsimp only
    rw [hA2, h40]
    rfl
  refine ⟨fun hA2 h40 => ⟨hval hA2 h40, ?_⟩, fun hA2 h40 => ?_, fun hA2 => ?_,
    fun productName => ⟨"Format folder missing: \"", "\" (A2 or 40x40 required)", rfl⟩, ?_⟩
  · rw [hval hA2 h40]
    have hmem : "40x40" ∈ subs.map fun f => f.name := by
      simpa using h40
    rcases List.mem_map.mp hmem with ⟨f, hf, hname⟩
    have hfind : (subs.find? (fun g => lowerS (trimS g.name) == lowerS (trimS "40x40"))).isSome := by
      rw [List.find?_isSome]
      exact ⟨f, hf, by rw [hname]; exact beq_self_eq_true _⟩
    unfold getSubfolderId
    rw [Option.isSome_map']
    exact hfind
  · unfold findFormatFolder
    dsimp only
    rw [hA2, h40]
    rfl
  · unfold findFormatFolder
    dsimp only
    rw [hA2]
    rfl
  · intro env row raw pf hrow hfind hfmt
    unfold resolveItem
    rw [hrow]
    dsimp only
    rw [hfind]
    dsimp only
    rw [hfmt]

theorem findFormatFolder_first_match_witness :
    (([⟨"40x40", "f40"⟩] : List Folder).map Folder.name).contains "A2" = false ∧
    (([⟨"40x40", "f40"⟩] : List Folder).map Folder.name).contains "40x40" = true ∧
    (findFormatFolder [⟨"40x40", "f40"⟩] = getSubfolderId [⟨"40x40", "f40"⟩] "40x40" ∧
      (findFormatFolder [⟨"40x40", "f40"⟩]).isSome = true) :=
  ⟨by decide, by decide,
   (findFormatFolder_first_match [⟨"40x40", "f40"⟩]).1 (by decide) (by decide)⟩


/-! ### orders.js processAllOrders (second variant, lines 403–437) -/

/-- `map[orderNumber] ??= []; map[orderNumber].push(order)` on an
insertion-ordered association list. -/
def pushGroup (acc : List (String × List Row)) (key : String) (row : Row) :
    List (String × List Row) :=
  if acc.any (fun g => g.1 == key) then
    acc.map (fun g => if g.1 == key then (g.1, g.2 ++ [row]) else g)
  else acc ++ [(key, [row])]

/-- The grouping reduce of `processAllOrders` (orders.js lines 411–416):
`const orderNumber = order['Order Number'].trim()` throws a `TypeError`
when the column is missing, and that throw — being outside any
`try` — aborts the whole pass. -/
def groupOrders : List Row → List (String × List Row) →
    Except String (List (String × List Row))
  | [], acc => .ok acc
  | row :: rest, acc =>
    match row.orderNumber with
    | none => .error "TypeError: Cannot read properties of undefined (reading trim)"
    | some s => groupOrders rest (pushGroup acc (trimS s) row)

/-- Observable state accumulated by one `processAllOrders` pass.
`failedRecord` stands for the persisted failed-orders record; this variant
of the pass (orders.js lines 403–437) loads and writes only the processed
tracker, so the field is carried through unchanged — the catch branch
(lines 428–431) logs and sends an admin alert only. -/
structure PassState where
  tracker : Tracker
  failedRecord : String → Option String
  attempts : List String        -- orders for which processSingleOrder was invoked
  emailsSent : List String      -- orders for which sendEmail was invoked
  emailsDelivered : List String -- orders whose notification was actually delivered
  alerts : List String          -- admin-alert messages from the catch branch
  saves : Nat                   -- number of saveTracker calls

/-- One iteration of the order loop (orders.js lines 418–432). -/
def passStep (fileName : String) (envOf : String → OrderEnv) (st : PassState)
    (g : String × List Row) : PassState :=
  if (entryOf st.tracker fileName).contains g.1 then st
  else
    let env := envOf g.1
    let st1 : PassState :=
      { st with
        attempts := st.attempts ++ [g.1],
        emailsSent :=
          if reachesEmail env g.2 then st.emailsSent ++ [g.1] else st.emailsSent,
        emailsDelivered :=
          if reachesEmail env g.2 && emailDelivered env.brevo
          then st.emailsDelivered ++ [g.1] else st.emailsDelivered }
    match (processSingleOrder env g.2).1 with
    | .ok _ =>
      { st1 with
        tracker := setEntry st1.tracker fileName (entryOf st1.tracker fileName ++ [g.1]),
        saves := st1.saves + 1 }
    | .error e => { st1 with alerts := st1.alerts ++ [e] }

/-- The `for (const [orderNumber, orderItems] of Object.entries(...))` loop. -/
def passLoop (fileName : String) (envOf : String → OrderEnv) :
    List (String × List Row) → PassState → PassState
  | [], st => st
  | g :: rest, st => passLoop fileName envOf rest (passStep fileName envOf st g)

/-- Result of one pass: the final observable state and whether the source
file was moved to the processed location (orders.js lines 434–436). -/
structure PassResult where
  state : PassState
  moved : Bool

/-- orders.js `processAllOrders` (second variant, lines 403–437), for the
latest export file `fileName` with parsed `rows`, starting from the loaded
tracker `t0`.  `envOf` gives the remote-world environment seen while
processing each order. -/
def processAllOrders (fileName : String) (rows : List Row)
    (envOf : String → OrderEnv) (t0 : Tracker) (f0 : String → Option String) :
    Except String PassResult :=
  let t1 := ensureEntry t0 fileName
  match groupOrders rows [] with
  | .error e => .error e
  | .ok groups =>
    let stf := passLoop fileName envOf groups
      { tracker := t1, failedRecord := f0, attempts := [], emailsSent := [],
        emailsDelivered := [], alerts := [], saves := 0 }
    .ok { state := stf,
          moved := (entryOf stf.tracker fileName).length == groups.length }

/-- Extract the result of a completed pass (for stating closed theorems
about concrete runs). -/
def getOkPass : Except String PassResult → PassResult
  | .ok pr => pr
  | .error _ =>
    { state := { tracker := fun _ => none, failedRecord := fun _ => none,
                 attempts := [], emailsSent := [], emailsDelivered := [],
                 alerts := [], saves := 0 },
      moved := false }

/-! ### part_006 processEtsyOrderFile (fix-suffix gate, lines 255–278) -/

/-- The regex replacement `fileName.replace(/_fix\d*\.csv$/, '.csv')`:
when the name ends in `_fix`, digits, `.csv`, that suffix collapses to
`.csv`; otherwise the name is unchanged. -/
def isSuffixL (suf l : List Char) : Bool := isPrefixL suf.reverse l.reverse

def dropSuffixIf (l suf : List Char) : Option (List Char) :=
  if isSuffixL suf l then some (l.take (l.length - suf.length)) else none

def baseFileName (fileName : String) : String :=
  match dropSuffixIf fileName.data ".csv".data with
  | none => fileName
  | some l1 =>
    match dropSuffixIf ((l1.reverse.dropWhile Char.isDigit).reverse) "_fix".data with
    | none => fileName
    | some l3 => ⟨l3 ++ ".csv".data⟩

/-- part_006 line 262: `fileName.includes('_fix')`. -/
def isFixAttempt (fileName : String) : Bool := containsSub fileName "_fix"

inductive FixGateResult where
  | skippedAlreadyProcessed
  | processed (pr : PassResult)

/-- part_006 `processEtsyOrderFile` (lines 255–278): a non-fix file whose
base name already has a completed-orders entry is skipped; otherwise the
consolidated `processAllOrders` runs (tracking, as always, under the
actual file name — the fix file's own key). -/
def processEtsyOrderFile (fileName : String) (rows : List Row)
    (envOf : String → OrderEnv) (t0 : Tracker) (f0 : String → Option String) :
    Except String FixGateResult :=
  if !(isFixAttempt fileName) && (t0 (baseFileName fileName)).isSome then
    .ok .skippedAlreadyProcessed
  else
    (processAllOrders fileName rows envOf t0 f0).map .processed

/-! ### orders.js processAllOrders (third variant, lines 704–786)

This variant keeps a failed-orders record and gates the move on
zero failures, but (lines 774–775) marks the whole file name in the
tracker after the loop whether or not orders failed.  Tracker values here
are booleans keyed by file name (and the inner skip also probes order
identifiers in the same map). -/

structure File3Acc where
  attempts : List String
  processedOrders : List String
  failedInFile : List String
  failedOrders : String → Option String

/-- One iteration of the `for (const order of orders)` loop
(orders.js lines 748–765).  `outcome` abstracts `processSingleOrder`. -/
def file3Step (outcome : String → Except String Unit) (t : String → Bool)
    (a : File3Acc) (row : Row) : File3Acc :=
  let orderNumber := jsStringOf row.orderId
  if t orderNumber then a
  else
    match outcome orderNumber with
    | .ok _ =>
      { a with attempts := a.attempts ++ [orderNumber],
               processedOrders := a.processedOrders ++ [orderNumber] }
    | .error m =>
      { a with attempts := a.attempts ++ [orderNumber],
               failedInFile := a.failedInFile ++ [orderNumber],
               failedOrders := fun k => if k = orderNumber then some m else a.failedOrders k }

structure File3Result where
  tracker : String → Bool
  failedOrders : String → Option String
  attempts : List String
  processedOrders : List String
  failedInFile : List String
  moved : Bool
  skippedFile : Bool

/-- One file of the third `processAllOrders` variant (orders.js lines
730–783): skip the file if its name is already truthy in the tracker;
otherwise run every row, record failures in the failed-orders record, move
the file only when no order failed this pass — and then mark the file name
in the tracker unconditionally. -/
def processFile3 (fileName : String) (rows : List Row)
    (outcome : String → Except String Unit) (t0 : String → Bool)
    (f0 : String → Option String) : File3Result :=
  if t0 fileName then
    { tracker := t0, failedOrders := f0, attempts := [], processedOrders := [],
      failedInFile := [], moved := false, skippedFile := true }
  else
    let a := rows.foldl (file3Step outcome t0) ⟨[], [], [], f0⟩
    { tracker := fun k => if k = fileName then true else t0 k,
      failedOrders := a.failedOrders,
      attempts := a.attempts,
      processedOrders := a.processedOrders,
      failedInFile := a.failedInFile,
      moved := a.failedInFile.isEmpty,
      skippedFile := false }

end NB

namespace NB

/-! ### Helper lemmas about the tracker and the pass loop -/

theorem entryOf_setEntry_self (t : Tracker) (k : String) (v : List String) :
    entryOf (setEntry t k v) k = v := by
  simp [entryOf, setEntry]

theorem setEntry_other (t : Tracker) (k k' : String) (v : List String) (h : k' ≠ k) :
    setEntry t k v k' = t k' := by
  simp [setEntry, h]

/-- Unfolding lemma for `passStep`, stated without intermediate `let`s. -/
theorem passStep_eq (fileName : String) (envOf : String → OrderEnv) (st : PassState)
    (g : String × List Row) :
    passStep fileName envOf st g =
      if (entryOf st.tracker fileName).contains g.1 then st
      else
        match (processSingleOrder (envOf g.1) g.2).1 with
        | .ok _ =>
          { st with
            tracker := setEntry st.tracker fileName (entryOf st.tracker fileName ++ [g.1]),
            attempts := st.attempts ++ [g.1],
            emailsSent :=
              if reachesEmail (envOf g.1) g.2 then st.emailsSent ++ [g.1] else st.emailsSent,
            emailsDelivered :=
              if reachesEmail (envOf g.1) g.2 && emailDelivered (envOf g.1).brevo
              then st.emailsDelivered ++ [g.1] else st.emailsDelivered,
            saves := st.saves + 1 }
        | .error e =>
          { st with
            attempts := st.attempts ++ [g.1],
            emailsSent :=
              if reachesEmail (envOf g.1) g.2 then st.emailsSent ++ [g.1] else st.emailsSent,
            emailsDelivered :=
              if reachesEmail (envOf g.1) g.2 && emailDelivered (envOf g.1).brevo
              then st.emailsDelivered ++ [g.1] else st.emailsDelivered,
            alerts := st.alerts ++ [e] } := by
  unfold passStep
  rfl

/-- A property preserved by every loop step holds after the whole loop. -/
theorem passLoop_invariant (fileName : String) (envOf : String → OrderEnv)
    (P : PassState → Prop)
    (hstep : ∀ st g, P st → P (passStep fileName envOf st g)) :
    ∀ (groups : List (String × List Row)) (st : PassState),
      P st → P (passLoop fileName envOf groups st) := by
  intro groups
  induction groups with
  | nil => intro st h; exact h
  | cons g rest ih => intro st h; exact ih _ (hstep st g h)

/-- Claim C1: an order identifier already in the processed-tracker entry
for the export file at the start of a `processAllOrders` pass is never
attempted again: `processSingleOrder` — and hence `sendEmail` — is not
invoked for it, it is not pushed into the entry again, and its
multiplicity in the entry is unchanged by the pass. -/
theorem pass_skips_tracked_order (fileName : String) (rows : List Row)
    (envOf : String → OrderEnv) (t0 : Tracker) (f0 : String → Option String)
    (o : String) (pr : PassResult)
    (ho : o ∈ entryOf t0 fileName)
    (hok : processAllOrders fileName rows envOf t0 f0 = .ok pr) :
    o ∉ pr.state.attempts ∧ o ∉ pr.state.emailsSent ∧
    (entryOf pr.state.tracker fileName).count o = (entryOf t0 fileName).count o := by
  unfold processAllOrders at hok
  cases hg : groupOrders rows [] with
  | error e =>
    rw [hg] at hok
    exact absurd hok (by simp)
  | ok groups =>
    rw [hg] at hok
    simp only [Except.ok.injEq] at hok
    have key := passLoop_invariant fileName envOf
      (fun st =>
        o ∈ entryOf st.tracker fileName ∧
        o ∉ st.attempts ∧ o ∉ st.emailsSent ∧
        (entryOf st.tracker fileName).count o = (entryOf t0 fileName).count o)
      ?step groups
      { tracker := ensureEntry t0 fileName, failedRecord := f0, attempts := [],
        emailsSent := [], emailsDelivered := [], alerts := [], saves := 0 }
      ?init
    case init =>
      refine ⟨?_, by simp, by simp, ?_⟩
      · show o ∈ entryOf (ensureEntry t0 fileName) fileName
        rw [entryOf_ensureEntry]
        exact ho
      · show (entryOf (ensureEntry t0 fileName) fileName).count o = _
        rw [entryOf_ensureEntry]
    case step =>
      rintro st g ⟨h1, h2, h3, h4⟩
      rw [passStep_eq]
      by_cases hskip : (entryOf st.tracker fileName).contains g.1 = true
      · rw [if_pos hskip]
        exact ⟨h1, h2, h3, h4⟩
      · rw [if_neg hskip]
        have hne : g.1 ≠ o := by
          intro he
          rw [he] at hskip
          simp [h1] at hskip
        cases hres : (processSingleOrder (envOf g.1) g.2).1 with
        | ok u =>
          refine ⟨?_, ?_, ?_, ?_⟩
          · show o ∈ entryOf (setEntry st.tracker fileName (entryOf st.tracker fileName ++ [g.1])) fileName
            rw [entryOf_setEntry_self]
            exact List.mem_append_left _ h1
          · show o ∉ st.attempts ++ [g.1]
            simp [h2, hne.symm, List.mem_append]
          · show o ∉ (if reachesEmail (envOf g.1) g.2 then st.emailsSent ++ [g.1] else st.emailsSent)
            by_cases hre : reachesEmail (envOf g.1) g.2 = true <;>
              simp [hre, h3, hne.symm, List.mem_append]
          · show (entryOf (setEntry st.tracker fileName (entryOf st.tracker fileName ++ [g.1])) fileName).count o = _
            rw [entryOf_setEntry_self, List.count_append, ← h4]
            simp [List.count_singleton', hne]
        | error e =>
          refine ⟨h1, ?_, ?_, h4⟩
          · show o ∉ st.attempts ++ [g.1]
            simp [h2, hne.symm, List.mem_append]
          · show o ∉ (if reachesEmail (envOf g.1) g.2 then st.emailsSent ++ [g.1] else st.emailsSent)
            by_cases hre : reachesEmail (envOf g.1) g.2 = true <;>
              simp [hre, h3, hne.symm, List.mem_append]
    rw [← hok]
    exact ⟨key.2.1, key.2.2.1, key.2.2.2⟩

/-- A successful environment for one order: the product `Sunset` exists
with an `A2` format folder and every remote step succeeds. -/
def goodEnv : OrderEnv :=
  { productFolders := [⟨"Sunset", "pf1"⟩],
    subfoldersOf := fun i => if i = "pf1" then [⟨"A2", "a2f"⟩] else [],
    downloadsOk := true, thankYouOk := true, zipOk := true, uploadOk := true,
    brevo := .okResponse }

def rowSunset : Row :=
  { orderNumber := some "1001", orderId := some "1001", productName := some "Sunset",
    buyerEmail := some "ann@x.com", buyerName := some "Ann" }

def c1T0 : Tracker := fun k => if k = "orders.csv" then some ["1001"] else none

def c1PR : PassResult :=
  getOkPass (processAllOrders "orders.csv" [rowSunset] (fun _ => goodEnv) c1T0 (fun _ => none))

theorem pass_skips_tracked_order_witness :
    "1001" ∈ entryOf c1T0 "orders.csv" ∧
    ("1001" ∉ c1PR.state.attempts ∧ "1001" ∉ c1PR.state.emailsSent ∧
      (entryOf c1PR.state.tracker "orders.csv").count "1001" =
        (entryOf c1T0 "orders.csv").count "1001") :=
  ⟨by decide,
   pass_skips_tracked_order "orders.csv" [rowSunset] (fun _ => goodEnv) c1T0
     (fun _ => none) "1001" c1PR (by decide) rfl⟩

end NB

namespace NB

/-! ### Claim C9: the per-order scratch directory -/

/-- Claim C9 (amended): `processSingleOrder` deletes the scratch directory
`./temp_<orderId>` exactly on the successful exit path; on every raising
exit — missing product folder, missing format folder, failed download,
thank-you, zip or upload step — the directory still exists when the call
exits (there is no `try/finally` around the cleanup). -/
theorem scratch_deleted_iff_success (env : OrderEnv) (orderItems : List Row) :
    (processSingleOrder env orderItems).2 =
      !exceptOk (processSingleOrder env orderItems).1 := by
  unfold processSingleOrder
  cases hres : resolveItems env orderItems with
  | error e => simp [exceptOk]
  | ok u =>
    cases u
    cases hty : env.thankYouOk <;> cases hz : env.zipOk <;> cases hu : env.uploadOk <;>
      cases hb : env.brevo <;>
        simp [exceptOk, sendEmailResult]

/-- An environment in which the ordered product's folder does not exist
in any collection. -/
def missingProductEnv : OrderEnv :=
  { productFolders := [], subfoldersOf := fun _ => [], downloadsOk := true,
    thankYouOk := true, zipOk := true, uploadOk := true, brevo := .okResponse }

/-- Counterexample to claim C9 as stated: with the order's product folder
missing, `processSingleOrder` raises — an exit path — and the scratch
directory `./temp_1001` still exists when the call exits. -/
theorem scratch_survives_failure_cex :
    (processSingleOrder missingProductEnv [rowSunset]).1 =
      .error (productMissingMsg "Sunset") ∧
    (processSingleOrder missingProductEnv [rowSunset]).2 = true :=
  ⟨rfl, rfl⟩

/-! ### Claim C2: a failed notification still records the order -/

def rowBuyer : Row :=
  { orderNumber := some "1001", orderId := some "1001", productName := some "Sunset",
    buyerEmail := some "buyer@x.com", buyerName := some "Bo" }

/-- `goodEnv`, except that the Brevo call returns a non-2xx response. -/
def failMailEnv : OrderEnv := { goodEnv with brevo := .errResponse }

def c2PR : PassResult :=
  getOkPass (processAllOrders "orders.csv" [rowBuyer] (fun _ => failMailEnv)
    (fun _ => none) (fun _ => none))

/-- Claim C2: the spec requires a failed delivery notification to raise so
that the order is treated as failed and stays unrecorded.  In the code,
`sendEmail` catches both the non-2xx response and a thrown `fetch` error
and returns normally, so `processSingleOrder` completes, and the pass
pushes the order into the tracker entry and saves it: order `1001` is
recorded as delivered (and the export file moved) although its
notification was never delivered. -/
theorem sendEmail_failure_still_recorded :
    sendEmailResult .errResponse = .ok () ∧
    sendEmailResult .fetchError = .ok () ∧
    emailDelivered .errResponse = false ∧
    "1001" ∈ entryOf c2PR.state.tracker "orders.csv" ∧
    "1001" ∈ c2PR.state.emailsSent ∧
    "1001" ∉ c2PR.state.emailsDelivered ∧
    c2PR.state.saves = 1 ∧
    c2PR.moved = true := by
  refine ⟨rfl, rfl, rfl, by decide, by decide, by decide, rfl, rfl⟩

/-! ### Claim C6: a row without an order identifier aborts the pass -/

theorem groupOrders_error_of_missing :
    ∀ (rows : List Row) (acc : List (String × List Row)),
      (∃ r ∈ rows, r.orderNumber = none) →
      groupOrders rows acc =
        .error "TypeError: Cannot read properties of undefined (reading trim)" := by
  intro rows
  induction rows with
  | nil =>
    intro acc h
    rcases h with ⟨r, hr, _⟩
    simp at hr
  | cons row rest ih =>
    intro acc h
    cases hro : row.orderNumber with
    | none => simp [groupOrders, hro]
    | some s =>
      rcases h with ⟨r, hr, hnone⟩
      rcases List.mem_cons.mp hr with heq | hmem
      · rw [heq, hro] at hnone
        cases hnone
      · simp only [groupOrders, hro]
        exact ih _ ⟨r, hmem, hnone⟩

/-- Claim C6 (amended): a row missing the order-identifier field is not
skipped: the grouping reduce of `processAllOrders` dereferences the
missing column (`order['Order Number'].trim()`) and the resulting
`TypeError` — thrown outside any `try` — aborts the whole pass, so none of
the file's rows is processed. -/
theorem missing_orderNumber_aborts_pass (fileName : String) (rows : List Row)
    (envOf : String → OrderEnv) (t0 : Tracker) (f0 : String → Option String)
    (h : ∃ r ∈ rows, r.orderNumber = none) :
    processAllOrders fileName rows envOf t0 f0 =
      .error "TypeError: Cannot read properties of undefined (reading trim)" := by
  unfold processAllOrders
  rw [groupOrders_error_of_missing rows [] h]

/-- A row whose `Order Number` column is absent. -/
def rowNoOrderNumber : Row :=
  { orderNumber := none, orderId := none, productName := some "Sunset",
    buyerEmail := some "ann@x.com", buyerName := some "Ann" }

theorem missing_orderNumber_aborts_pass_witness :
    (∃ r ∈ [rowNoOrderNumber], r.orderNumber = none) ∧
    processAllOrders "orders.csv" [rowNoOrderNumber] (fun _ => goodEnv)
        (fun _ => none) (fun _ => none) =
      .error "TypeError: Cannot read properties of undefined (reading trim)" :=
  ⟨⟨rowNoOrderNumber, by decide, rfl⟩,
   missing_orderNumber_aborts_pass "orders.csv" [rowNoOrderNumber] (fun _ => goodEnv)
     (fun _ => none) (fun _ => none) ⟨rowNoOrderNumber, by decide, rfl⟩⟩

/-- Counterexample to claim C6 as stated: a file with one well-formed row
(order `1001`, deliverable) and one row missing the order identifier.  The
claim says the bad row is skipped and the remaining row still processed;
instead the whole pass aborts with the `TypeError`, so no order — not even
`1001` — is grouped, processed, or delivered. -/
theorem malformed_row_not_skipped_cex :
    processAllOrders "orders.csv" [rowBuyer, rowNoOrderNumber] (fun _ => goodEnv)
        (fun _ => none) (fun _ => none) =
      .error "TypeError: Cannot read properties of undefined (reading trim)" := rfl

end NB

namespace NB

/-! ### Characterization of a pass over fresh, distinct orders -/

/-- Did `processSingleOrder` complete normally for this group? -/
def succeedsB (envOf : String → OrderEnv) (g : String × List Row) : Bool :=
  exceptOk (processSingleOrder (envOf g.1) g.2).1

/-- The admin-alert message produced for this group, if any. -/
def alertOf (envOf : String → OrderEnv) (g : String × List Row) : Option String :=
  match (processSingleOrder (envOf g.1) g.2).1 with
  | .ok _ => none
  | .error e => some e

theorem passLoop_fresh_char (fileName : String) (envOf : String → OrderEnv) :
    ∀ (groups : List (String × List Row)) (st : PassState),
      (∀ g ∈ groups, g.1 ∉ entryOf st.tracker fileName) →
      (groups.map Prod.fst).Nodup →
      (passLoop fileName envOf groups st).attempts = st.attempts ++ groups.map Prod.fst ∧
      entryOf (passLoop fileName envOf groups st).tracker fileName =
        entryOf st.tracker fileName ++ (groups.filter (succeedsB envOf)).map Prod.fst ∧
      (passLoop fileName envOf groups st).emailsSent =
        st.emailsSent ++ (groups.filter (fun q => reachesEmail (envOf q.1) q.2)).map Prod.fst ∧
      (passLoop fileName envOf groups st).failedRecord = st.failedRecord ∧
      (∀ k, k ≠ fileName → (passLoop fileName envOf groups st).tracker k = st.tracker k) ∧
      (passLoop fileName envOf groups st).alerts = st.alerts ++ groups.filterMap (alertOf envOf) := by
  intro groups
  induction groups with
  | nil =>
    intro st _ _
    exact ⟨by simp [passLoop], by simp [passLoop], by simp [passLoop],
      rfl, fun _ _ => rfl, by simp [passLoop]⟩
  | cons g rest ih =>
    intro st hfresh hnodup
    have hg1 : g.1 ∉ entryOf st.tracker fileName := hfresh g (List.mem_cons_self g rest)
    have hskip : ¬ ((entryOf st.tracker fileName).contains g.1 = true) := by simp [hg1]
    rw [List.map_cons] at hnodup
    have hnd := List.nodup_cons.mp hnodup
    simp only [passLoop]
    rw [passStep_eq, if_neg hskip]
    cases hres : (processSingleOrder (envOf g.1) g.2).1 with
    | ok u =>
      obtain ⟨a1, a2, a3, a4, a5, a6⟩ := ih
        { st with
          tracker := setEntry st.tracker fileName (entryOf st.tracker fileName ++ [g.1]),
          attempts := st.attempts ++ [g.1],
          emailsSent :=
            if reachesEmail (envOf g.1) g.2 then st.emailsSent ++ [g.1] else st.emailsSent,
          emailsDelivered :=
            if reachesEmail (envOf g.1) g.2 && emailDelivered (envOf g.1).brevo
            then st.emailsDelivered ++ [g.1] else st.emailsDelivered,
          saves := st.saves + 1 }
        (by
          intro g' hg'
          show g'.1 ∉ entryOf (setEntry st.tracker fileName (entryOf st.tracker fileName ++ [g.1])) fileName
          rw [entryOf_setEntry_self]
          intro hmem
          rcases List.mem_append.mp hmem with hmem1 | hmem2
          · exact hfresh g' (List.mem_cons_of_mem _ hg') hmem1
          · have heq := List.mem_singleton.mp hmem2
            exact hnd.1 (by rw [← heq]; exact List.mem_map_of_mem Prod.fst hg'))
        hnd.2
      have hsucc : succeedsB envOf g = true := by simp [succeedsB, hres, exceptOk]
      refine ⟨?_, ?_, ?_, ?_, ?_, ?_⟩
      · rw [a1]; simp
      · rw [a2, entryOf_setEntry_self, List.filter_cons_of_pos hsucc]
        simp
      · rw [a3, List.filter_cons]
        by_cases hre : reachesEmail (envOf g.1) g.2 = true
        · simp [hre]
        · simp [hre]
      · exact a4
      · intro k hk
        rw [a5 k hk]
        exact setEntry_other _ _ _ _ hk
      · rw [a6, List.filterMap_cons_none (by simp [alertOf, hres])]
    | error e =>
      obtain ⟨a1, a2, a3, a4, a5, a6⟩ := ih
        { st with
          attempts := st.attempts ++ [g.1],
          emailsSent :=
            if reachesEmail (envOf g.1) g.2 then st.emailsSent ++ [g.1] else st.emailsSent,
          emailsDelivered :=
            if reachesEmail (envOf g.1) g.2 && emailDelivered (envOf g.1).brevo
            then st.emailsDelivered ++ [g.1] else st.emailsDelivered,
          alerts := st.alerts ++ [e] }
        (by
          intro g' hg'
          exact hfresh g' (List.mem_cons_of_mem _ hg'))
        hnd.2
      have hfailg : succeedsB envOf g = false := by simp [succeedsB, hres, exceptOk]
      refine ⟨?_, ?_, ?_, ?_, ?_, ?_⟩
      · rw [a1]; simp
      · rw [a2, List.filter_cons_of_neg (by simpa using hfailg)]
      · rw [a3, List.filter_cons]
        by_cases hre : reachesEmail (envOf g.1) g.2 = true
        · simp [hre]
        · simp [hre]
      · exact a4
      · intro k hk
        exact a5 k hk
      · rw [a6, List.filterMap_cons_some (show alertOf envOf g = some e from by simp [alertOf, hres])]
        simp

/-- The key list of `pushGroup`: unchanged when the key is already
present, extended by the key otherwise. -/
theorem keys_pushGroup (acc : List (String × List Row)) (key : String) (row : Row) :
    (pushGroup acc key row).map Prod.fst =
      if acc.any (fun g => g.1 == key) then acc.map Prod.fst
      else acc.map Prod.fst ++ [key] := by
  unfold pushGroup
  by_cases h : acc.any (fun g => g.1 == key) = true
  · rw [if_pos h, if_pos h, List.map_map]
    refine List.map_congr_left ?_
    intro g _
    dsimp only [Function.comp]
    split <;> rfl
  · rw [if_neg h, if_neg h, List.map_append]
    rfl

/-- The grouping reduce produces pairwise-distinct order keys. -/
theorem groupOrders_keys_nodup :
    ∀ (rows : List Row) (acc groups : List (String × List Row)),
      (acc.map Prod.fst).Nodup →
      groupOrders rows acc = .ok groups →
      (groups.map Prod.fst).Nodup := by
  intro rows
  induction rows with
  | nil =>
    intro acc groups h hok
    simp only [groupOrders, Except.ok.injEq] at hok
    rw [← hok]
    exact h
  | cons row rest ih =>
    intro acc groups h hok
    cases hro : row.orderNumber with
    | none => simp [groupOrders, hro] at hok
    | some s =>
      simp only [groupOrders, hro] at hok
      refine ih _ _ ?_ hok
      rw [keys_pushGroup]
      by_cases hany : acc.any (fun g => g.1 == trimS s) = true
      · rw [if_pos hany]
        exact h
      · rw [if_neg hany]
        rw [List.nodup_append]
        refine ⟨h, List.nodup_singleton _, ?_⟩
        intro a ha hb
        have heq := List.mem_singleton.mp hb
        rcases List.mem_map.mp ha with ⟨g, hg, hga⟩
        exact hany (List.any_eq_true.mpr ⟨g, hg, by rw [hga, heq]; exact beq_self_eq_true _⟩)

/-- Map of first components commutes with filtering on the key. -/
theorem map_fst_filter (p : String → Bool) :
    ∀ l : List (String × List Row),
      (l.filter (fun g => p g.1)).map Prod.fst = (l.map Prod.fst).filter p := by
  intro l
  induction l with
  | nil => rfl
  | cons g t ih =>
    simp only [List.filter_cons, List.map_cons]
    cases hp : p g.1 with
    | true => simp [hp, ih]
    | false => simp [hp, ih]

/-- Filtering out a present element strictly shortens a list. -/
theorem length_filter_lt_of_mem_false (p : String → Bool) :
    ∀ (l : List String) (a : String), a ∈ l → p a = false →
      (l.filter p).length < l.length := by
  intro l
  induction l with
  | nil =>
    intro a ha
    simp at ha
  | cons b t ih =>
    intro a ha hpa
    rcases List.mem_cons.mp ha with heq | hmem
    · subst heq
      rw [List.filter_cons_of_neg (by simpa using hpa)]
      exact Nat.lt_succ_of_le (List.length_filter_le p t)
    · cases hpb : p b with
      | true =>
        rw [List.filter_cons_of_pos hpb]
        simpa using ih a hmem hpa
      | false =>
        rw [List.filter_cons_of_neg (by simpa using hpb)]
        exact Nat.lt_succ_of_lt (ih a hmem hpa)

end NB

namespace NB

/-! ### Claim C3: partial-failure isolation -/

/-- Claim C3 (amended): in the `processAllOrders` pass of orders.js lines
403–437, when one logical order `oi` of a freshly seen file fails and
every sibling succeeds, each successful order is attempted, delivered and
pushed into the processed-tracker entry; the failure aborts no sibling
(every key is attempted); the file is not moved; `oi` stays out of the
tracker and thus eligible for retry; the failure produces an admin
alert — but nothing is written to any failed-orders record by this pass. -/
theorem partial_failure_isolation_amended (fileName : String) (rows : List Row)
    (envOf : String → OrderEnv) (t0 : Tracker) (f0 : String → Option String)
    (groups : List (String × List Row)) (oi : String)
    (hg : groupOrders rows [] = .ok groups)
    (hinit : t0 fileName = none)
    (hoi : oi ∈ groups.map Prod.fst)
    (hfail : ∀ g ∈ groups, g.1 = oi → exceptOk (processSingleOrder (envOf g.1) g.2).1 = false)
    (hsucc : ∀ g ∈ groups, g.1 ≠ oi → exceptOk (processSingleOrder (envOf g.1) g.2).1 = true) :
    ∃ pr, processAllOrders fileName rows envOf t0 f0 = .ok pr ∧
      pr.state.attempts = groups.map Prod.fst ∧
      entryOf pr.state.tracker fileName = (groups.map Prod.fst).filter (fun k => !(k == oi)) ∧
      oi ∉ entryOf pr.state.tracker fileName ∧
      pr.moved = false ∧
      pr.state.failedRecord = f0 ∧
      pr.state.alerts ≠ [] := by
  have hentry0 : entryOf (ensureEntry t0 fileName) fileName = [] := by
    rw [entryOf_ensureEntry]
    simp [entryOf, hinit]
  have hnodup : (groups.map Prod.fst).Nodup :=
    groupOrders_keys_nodup rows [] groups (by simp) hg
  obtain ⟨a1, a2, a3, a4, a5, a6⟩ := passLoop_fresh_char fileName envOf groups
    { tracker := ensureEntry t0 fileName, failedRecord := f0, attempts := [],
      emailsSent := [], emailsDelivered := [], alerts := [], saves := 0 }
    (by
      intro g _
      show g.1 ∉ entryOf (ensureEntry t0 fileName) fileName
      rw [hentry0]
      simp)
    hnodup
  have hpred : ∀ g ∈ groups, succeedsB envOf g = !(g.1 == oi) := by
    intro g hgm
    by_cases he : g.1 = oi
    · have hf := hfail g hgm he
      rw [he] at hf
      simp [succeedsB, he, hf]
    · simp [succeedsB, hsucc g hgm he, he]
  have hfilter : groups.filter (succeedsB envOf) =
      groups.filter (fun g => !(g.1 == oi)) := List.filter_congr hpred
  have hentry : entryOf (passLoop fileName envOf groups
      { tracker := ensureEntry t0 fileName, failedRecord := f0, attempts := [],
        emailsSent := [], emailsDelivered := [], alerts := [], saves := 0 }).tracker fileName =
      (groups.map Prod.fst).filter (fun k => !(k == oi)) := by
    rw [a2, hentry0, hfilter, map_fst_filter (fun k => !(k == oi)) groups]
    simp
  unfold processAllOrders
  rw [hg]
  refine ⟨_, rfl, ?_, ?_, ?_, ?_, ?_, ?_⟩
  · rw [a1]
    simp
  · exact hentry
  · rw [hentry]
    intro hmem
    have := (List.mem_filter.mp hmem).2
    simp at this
  · show ((entryOf (passLoop fileName envOf groups _).tracker fileName).length ==
        groups.length) = false
    rw [hentry]
    have hlt : ((groups.map Prod.fst).filter (fun k => !(k == oi))).length <
        groups.length := by
      have := length_filter_lt_of_mem_false (fun k => !(k == oi)) (groups.map Prod.fst)
        oi hoi (by simp)
      simpa using this
    exact beq_eq_false_iff_ne.mpr (Nat.ne_of_lt hlt)
  · exact a4
  · rcases List.mem_map.mp hoi with ⟨g0, hg0, hfst⟩
    cases hres0 : (processSingleOrder (envOf g0.1) g0.2).1 with
    | ok u =>
      have := hfail g0 hg0 hfst
      rw [hres0] at this
      simp [exceptOk] at this
    | error e =>
      have hmem : e ∈ List.filterMap (alertOf envOf) groups :=
        List.mem_filterMap.mpr ⟨g0, hg0, by simp [alertOf, hres0]⟩
      rw [a6]
      simp only [List.nil_append]
      exact List.ne_nil_of_mem hmem

def row1002 : Row :=
  { orderNumber := some "1002", orderId := some "1002", productName := some "Missing",
    buyerEmail := some "b@x.com", buyerName := some "B" }

def row1003 : Row :=
  { orderNumber := some "1003", orderId := some "1003", productName := some "Sunset",
    buyerEmail := some "c@x.com", buyerName := some "C" }

def c3Rows : List Row := [rowSunset, row1002, row1003]

def c3Groups : List (String × List Row) :=
  [("1001", [rowSunset]), ("1002", [row1002]), ("1003", [row1003])]

theorem partial_failure_isolation_amended_witness :
    (groupOrders c3Rows [] = .ok c3Groups ∧ "1002" ∈ c3Groups.map Prod.fst) ∧
    (∃ pr, processAllOrders "orders.csv" c3Rows (fun _ => goodEnv)
        (fun _ => none) (fun _ => none) = .ok pr ∧
      pr.state.attempts = c3Groups.map Prod.fst ∧
      entryOf pr.state.tracker "orders.csv" =
        (c3Groups.map Prod.fst).filter (fun k => !(k == "1002")) ∧
      "1002" ∉ entryOf pr.state.tracker "orders.csv" ∧
      pr.moved = false ∧
      pr.state.failedRecord = (fun _ => none) ∧
      pr.state.alerts ≠ []) :=
  ⟨⟨rfl, by decide⟩,
   partial_failure_isolation_amended "orders.csv" c3Rows (fun _ => goodEnv)
     (fun _ => none) (fun _ => none) c3Groups "1002" rfl rfl (by decide)
     (by decide) (by decide)⟩

def c3PR : PassResult :=
  getOkPass (processAllOrders "orders.csv" c3Rows (fun _ => goodEnv)
    (fun _ => none) (fun _ => none))

/-- The per-order outcome of the third variant's `processSingleOrder` in
the same scenario: order `1002`'s product folder is missing. -/
def c3Out : String → Except String Unit :=
  fun o => if o = "1002" then .error (productMissingMsg "Missing") else .ok ()

def f3run1 : File3Result :=
  processFile3 "orders.csv" c3Rows c3Out (fun _ => false) (fun _ => none)

def f3run2 : File3Result :=
  processFile3 "orders.csv" c3Rows c3Out f3run1.tracker f3run1.failedOrders

/-- Counterexample to claim C3 as stated, at a file with orders
`1001`, `1002`, `1003` where `1002` fails (missing product folder): in the
pass of orders.js lines 403–437 the siblings complete, the file is not
moved and `1002` stays retryable, but `1002` is never recorded in any
failed-orders record (only an admin alert is sent); in the variant of
orders.js lines 704–786 `1002` is recorded in the failed-orders record and
the file is not moved, but the file name is marked processed in the
tracker anyway, so the next pass skips the whole file and never retries
`1002`.  Either way the claim's conjunction fails. -/
theorem failed_order_record_cex :
    c3PR.state.attempts = ["1001", "1002", "1003"] ∧
    entryOf c3PR.state.tracker "orders.csv" = ["1001", "1003"] ∧
    c3PR.moved = false ∧
    c3PR.state.failedRecord "1002" = none ∧
    (f3run1.failedOrders "1002").isSome = true ∧
    f3run1.moved = false ∧
    f3run1.tracker "orders.csv" = true ∧
    f3run2.skippedFile = true ∧
    f3run2.attempts = [] := by
  refine ⟨by decide, by decide, by decide, rfl, rfl, by decide, rfl, rfl, rfl⟩

end NB

namespace NB

/-! ### Claim C4: fix-suffix handling -/

/-- Claim C4 (amended): a `_fix`-suffixed export file passes the
duplicate-file gate of `processEtsyOrderFile` and is tracked under its own
distinct key, so the original file's completed-orders entry is untouched,
and a genuinely new order identifier in the fix file is processed and
tracked under the fix-file key; but an order identifier already marked
complete under the original file's key is NOT skipped — the pass's skip
check consults only the fix file's own (fresh) entry, so the order is
attempted, re-delivered, and tracked again under the fix-file key. -/
theorem fix_suffix_isolation_amended (f : String) (rows : List Row)
    (envOf : String → OrderEnv) (t0 : Tracker) (f0 : String → Option String)
    (groups : List (String × List Row)) (orig o oNew : String)
    (hfix : isFixAttempt f = true)
    (ht0f : t0 f = none)
    (hg : groupOrders rows [] = .ok groups)
    (hsucc : ∀ g ∈ groups, exceptOk (processSingleOrder (envOf g.1) g.2).1 = true)
    (horig : o ∈ entryOf t0 orig) (hne : orig ≠ f)
    (ho : o ∈ groups.map Prod.fst)
    (hoNew : oNew ∈ groups.map Prod.fst) :
    ∃ pr, processEtsyOrderFile f rows envOf t0 f0 = .ok (.processed pr) ∧
      pr.state.tracker orig = t0 orig ∧
      entryOf pr.state.tracker f = groups.map Prod.fst ∧
      (o ∈ pr.state.attempts ∧ o ∈ entryOf pr.state.tracker f) ∧
      (oNew ∈ pr.state.attempts ∧ oNew ∈ entryOf pr.state.tracker f) := by
  have hentry0 : entryOf (ensureEntry t0 f) f = [] := by
    rw [entryOf_ensureEntry]
    simp [entryOf, ht0f]
  have hnodup : (groups.map Prod.fst).Nodup :=
    groupOrders_keys_nodup rows [] groups (by simp) hg
  obtain ⟨a1, a2, a3, a4, a5, a6⟩ := passLoop_fresh_char f envOf groups
    { tracker := ensureEntry t0 f, failedRecord := f0, attempts := [],
      emailsSent := [], emailsDelivered := [], alerts := [], saves := 0 }
    (by
      intro g _
      show g.1 ∉ entryOf (ensureEntry t0 f) f
      rw [hentry0]
      simp)
    hnodup
  have hall : groups.filter (succeedsB envOf) = groups :=
    List.filter_eq_self.mpr (fun g hgm => hsucc g hgm)
  have hattempts : (passLoop f envOf groups
      { tracker := ensureEntry t0 f, failedRecord := f0, attempts := [],
        emailsSent := [], emailsDelivered := [], alerts := [], saves := 0 }).attempts =
      groups.map Prod.fst := by
    rw [a1]
    simp
  have hentry : entryOf (passLoop f envOf groups
      { tracker := ensureEntry t0 f, failedRecord := f0, attempts := [],
        emailsSent := [], emailsDelivered := [], alerts := [], saves := 0 }).tracker f =
      groups.map Prod.fst := by
    rw [a2, hentry0, hall]
    simp
  unfold processEtsyOrderFile
  rw [hfix]
  simp only [Bool.not_true, Bool.false_and, Bool.false_eq_true, if_false]
  unfold processAllOrders
  rw [hg]
  simp only [Except.map]
  refine ⟨_, rfl, ?_, hentry, ⟨?_, ?_⟩, ⟨?_, ?_⟩⟩
  · rw [a5 orig hne]
    exact ensureEntry_other t0 f orig hne
  · rw [hattempts]
    exact ho
  · rw [hentry]
    exact ho
  · rw [hattempts]
    exact hoNew
  · rw [hentry]
    exact hoNew

def c4T0 : Tracker := fun k => if k = "orders.csv" then some ["1001"] else none

def rowNew2001 : Row :=
  { orderNumber := some "2001", orderId := some "2001", productName := some "Sunset",
    buyerEmail := some "d@x.com", buyerName := some "D" }

def c4Rows : List Row := [rowSunset, rowNew2001]

def c4Groups : List (String × List Row) :=
  [("1001", [rowSunset]), ("2001", [rowNew2001])]

theorem fix_suffix_isolation_amended_witness :
    (isFixAttempt "orders_fix.csv" = true ∧ "1001" ∈ entryOf c4T0 "orders.csv") ∧
    (∃ pr, processEtsyOrderFile "orders_fix.csv" c4Rows (fun _ => goodEnv) c4T0
        (fun _ => none) = .ok (.processed pr) ∧
      pr.state.tracker "orders.csv" = c4T0 "orders.csv" ∧
      entryOf pr.state.tracker "orders_fix.csv" = c4Groups.map Prod.fst ∧
      ("1001" ∈ pr.state.attempts ∧
        "1001" ∈ entryOf pr.state.tracker "orders_fix.csv") ∧
      ("2001" ∈ pr.state.attempts ∧
        "2001" ∈ entryOf pr.state.tracker "orders_fix.csv")) :=
  ⟨⟨rfl, by decide⟩,
   fix_suffix_isolation_amended "orders_fix.csv" c4Rows (fun _ => goodEnv) c4T0
     (fun _ => none) c4Groups "orders.csv" "1001" "2001" rfl (by decide) rfl
     (by decide) (by decide) (by decide) (by decide) (by decide)⟩

def c4PR : PassResult :=
  getOkPass (processAllOrders "orders_fix.csv" [rowSunset] (fun _ => goodEnv) c4T0
    (fun _ => none))

/-- Counterexample to claim C4 as stated: order `1001` is already complete
under `orders.csv`, yet when `orders_fix.csv` containing the same order
identifier is processed, `1001` is attempted again, its notification is
re-sent, and it is tracked again under the fix-file key — it is not
skipped, because the skip check reads only `tracker['orders_fix.csv']`. -/
theorem fix_suffix_not_skipped_cex :
    baseFileName "orders_fix.csv" = "orders.csv" ∧
    isFixAttempt "orders_fix.csv" = true ∧
    "1001" ∈ entryOf c4T0 "orders.csv" ∧
    processEtsyOrderFile "orders_fix.csv" [rowSunset] (fun _ => goodEnv) c4T0
        (fun _ => none) = .ok (.processed c4PR) ∧
    "1001" ∈ c4PR.state.attempts ∧
    "1001" ∈ c4PR.state.emailsSent ∧
    "1001" ∈ entryOf c4PR.state.tracker "orders_fix.csv" := by
  refine ⟨rfl, rfl, by decide, rfl, by decide, by decide, by decide⟩

end NB
